import Mathlib

/-!
Verification of the BlackBox peer-to-peer chat node (`main.go`) against its
natural-language specification.  The Go code is shallowly embedded: strings
are `List Char`, file-system and network effects are explicit state or
oracle parameters, and external library calls (multiaddr parsing, dialing)
are abstract function parameters.  Definitions come first, then the
supporting lemmas, then one theorem per specification claim.
-/

namespace BlackBox

/-- Characters of the wire-frame delimiter `]:` used by the chat framing:
the outbound side builds `fmt.Sprintf("[%s]:%s", username, line)` and the
inbound listener splits on this delimiter. -/
def frameDelim : List Char := [']', ':']

/-- First-occurrence split, the behaviour of Go `strings.SplitN(s, sep, 2)`
for a non-empty `sep`: `some (pre, post)` with `s = pre ++ sep ++ post` at the
first occurrence of `sep`, and `none` when `sep` does not occur in `s`. -/
def splitFirst (sep : List Char) : List Char → Option (List Char × List Char)
  | [] => none
  | c :: cs =>
    if sep.isPrefixOf (c :: cs) then some ([], (c :: cs).drop sep.length)
    else
      match splitFirst sep cs with
      | some (pre, post) => some (c :: pre, post)
      | none => none

/-- Go `strings.Contains(s, sub)` for a non-empty `sub`. -/
def containsSub (sub s : List Char) : Bool := (splitFirst sub s).isSome

/-- Outbound frame wrap: `fmt.Sprintf("[%s]:%s", username, line)`. -/
def wrapFrame (name body : List Char) : List Char :=
  '[' :: (name ++ frameDelim ++ body)

/-- How one inbound message is rendered by the message listener. -/
inductive Parsed where
  | framed (name body : List Char)
  | plain (text : List Char)
  deriving DecidableEq

/-- Inbound frame parsing from the message listener:
`parts := strings.SplitN(msgText, "]:", 2)`; when there are two parts and
`parts[0]` has prefix `[`, the pair `(strings.TrimPrefix(parts[0], "["),
parts[1])` is rendered as a framed message; otherwise the whole text is
rendered verbatim. -/
def parseFrame (msg : List Char) : Parsed :=
  match splitFirst frameDelim msg with
  | some (pre, post) =>
    if ['['].isPrefixOf pre then .framed (pre.drop 1) post else .plain msg
  | none => .plain msg

/-- A topic message as seen by the inbound listener: the peer it was received
from (`msg.ReceivedFrom`) and its payload (`msg.Data`).  Peer identities are
abstracted to `Nat`. -/
structure InMsg where
  receivedFrom : Nat
  data : List Char
  deriving DecidableEq

/-- One step of the inbound message listener: a message received from this
node itself is discarded (`continue`), every other message is rendered by
`parseFrame`. -/
def handleInbound (selfId : Nat) (m : InMsg) : Option Parsed :=
  if m.receivedFrom = selfId then none else some (parseFrame m.data)

/-- The inbound listener over a whole stream of received messages: the
sequence of renderings it writes to the console. -/
def renderAll (selfId : Nat) (msgs : List InMsg) : List Parsed :=
  msgs.filterMap (handleInbound selfId)

/-- The file-system state relevant to `Ensure`: the contents of the key file
at the fixed path (`none` when the file does not exist) plus a ghost count of
the writes performed so far. -/
structure KeyFS (Bytes : Type) where
  file : Option Bytes
  writes : Nat
  deriving DecidableEq

/-- The only non-IO failure of `Ensure`: the stored key file does not
deserialize. -/
inductive KeyErr where
  | corruptKey
  deriving DecidableEq

/-- Function `Ensure` from `main.go`: if no key file exists at the path,
generate a fresh key (`fresh` stands for the result of
`crypto.GenerateEd25519Key`), marshal it, write the file and return the
fresh key; otherwise read the file, unmarshal it and return the stored key,
writing nothing.  Here `marshal` and `unmarshal` stand for
`crypto.MarshalPrivateKey` and `crypto.UnmarshalPrivateKey`. -/
def Ensure {Key Bytes : Type} (marshal : Key → Bytes)
    (unmarshal : Bytes → Option Key) (fresh : Key) (fs : KeyFS Bytes) :
    Except KeyErr Key × KeyFS Bytes :=
  match fs.file with
  | none => (.ok fresh, ⟨some (marshal fresh), fs.writes + 1⟩)
  | some data =>
    match unmarshal data with
    | none => (.error .corruptKey, fs)
    | some k => (.ok k, fs)

/-- A sequence of `Ensure` calls on the same path, each call drawing its own
freshly generated key from the list. -/
def runEnsure {Key Bytes : Type} (marshal : Key → Bytes)
    (unmarshal : Bytes → Option Key) : List Key → KeyFS Bytes → KeyFS Bytes
  | [], fs => fs
  | f :: rest, fs => runEnsure marshal unmarshal rest (Ensure marshal unmarshal f fs).2

/-- Go `unicode.IsSpace`, the whitespace notion of `strings.TrimSpace`. -/
def isGoSpace (c : Char) : Bool :=
  (0x09 ≤ c.val && c.val ≤ 0x0D) || c.val == 0x20 || c.val == 0x85 ||
  c.val == 0xA0 || c.val == 0x1680 || (0x2000 ≤ c.val && c.val ≤ 0x200A) ||
  c.val == 0x2028 || c.val == 0x2029 || c.val == 0x202F || c.val == 0x205F ||
  c.val == 0x3000

/-- Go `strings.TrimSpace`: strip leading and trailing whitespace. -/
def trimSpace (l : List Char) : List Char :=
  ((l.dropWhile isGoSpace).reverse.dropWhile isGoSpace).reverse

/-- What one operator input line leads to in the outbound input loop.
`sendFailed` models the `publish error:` report printed when `t.Publish`
fails. -/
inductive LineAction where
  | promptOnly
  | helpShown
  | exited
  | sent (framed : List Char)
  | sendFailed (framed : List Char)
  deriving DecidableEq

/-- One iteration of the outbound input loop of `main`: trim the scanned
line; a blank line only redraws the prompt; `/help` prints usage; `/exit`
cancels and terminates the process; any other line is frame-wrapped with the
session's display name and published (`pubOk` is the success of
`t.Publish`), a failed publish being reported while the loop continues.  The
`Bool` is whether the loop keeps running. -/
def outboundStep (username : List Char) (pubOk : List Char → Bool)
    (raw : List Char) : LineAction × Bool :=
  let line := trimSpace raw
  if line = [] then (.promptOnly, true)
  else if line = "/help".data then (.helpShown, true)
  else if line = "/exit".data then (.exited, false)
  else if pubOk (wrapFrame username line) then (.sent (wrapFrame username line), true)
  else (.sendFailed (wrapFrame username line), true)

/-- The outbound input loop over a list of operator lines. -/
def runOutbound (username : List Char) (pubOk : List Char → Bool) :
    List (List Char) → List LineAction
  | [] => []
  | raw :: rest =>
    match outboundStep username pubOk raw with
    | (a, true) => a :: runOutbound username pubOk rest
    | (a, false) => [a]

/-- Go `strings.Split` for a single-character separator.  The result is
never empty and the parts joined by `sep` give back the input. -/
def splitOn (sep : Char) : List Char → List (List Char)
  | [] => [[]]
  | c :: cs =>
    if c = sep then [] :: splitOn sep cs
    else
      match splitOn sep cs with
      | p :: ps => (c :: p) :: ps
      | [] => [[c]]

/-- Error from the relay-list parser, carrying the offending entry as the
Go code wraps it into the error message. -/
inductive RelayErr where
  | badMultiaddr (s : List Char)
  | badAddrInfo (s : List Char)
  deriving DecidableEq

/-- The entry string named by a relay-parse error. -/
def RelayErr.entry : RelayErr → List Char
  | .badMultiaddr s => s
  | .badAddrInfo s => s

/-- One entry of the relay list: `multiaddr.NewMultiaddr` followed by
`peer.AddrInfoFromP2pAddr`, both abstract library calls, each failure
wrapped with the offending entry. -/
def parseRelayEntry {MA Info : Type} (newMultiaddr : List Char → Option MA)
    (addrInfoFromP2p : MA → Option Info) (s : List Char) :
    Except RelayErr Info :=
  match newMultiaddr s with
  | none => .error (.badMultiaddr s)
  | some m =>
    match addrInfoFromP2p m with
    | none => .error (.badAddrInfo s)
    | some i => .ok i

/-- The loop body of `parseRelayInfos` over the comma-split parts: trim
each, skip empties, parse the rest in order, aborting on the first bad
entry. -/
def parseRelayParts {MA Info : Type} (newMultiaddr : List Char → Option MA)
    (addrInfoFromP2p : MA → Option Info) :
    List (List Char) → Except RelayErr (List Info)
  | [] => .ok []
  | p :: ps =>
    if trimSpace p = [] then parseRelayParts newMultiaddr addrInfoFromP2p ps
    else
      match parseRelayEntry newMultiaddr addrInfoFromP2p (trimSpace p) with
      | .error e => .error e
      | .ok i =>
        match parseRelayParts newMultiaddr addrInfoFromP2p ps with
        | .error e => .error e
        | .ok is => .ok (i :: is)

/-- Function `parseRelayInfos` from `main.go`: empty or whitespace-only
input gives an empty list; otherwise split on commas and parse the parts. -/
def parseRelayInfos {MA Info : Type} (newMultiaddr : List Char → Option MA)
    (addrInfoFromP2p : MA → Option Info) (csv : List Char) :
    Except RelayErr (List Info) :=
  if trimSpace csv = [] then .ok []
  else parseRelayParts newMultiaddr addrInfoFromP2p (splitOn ',' csv)

/-- Toy multiaddr layer used to instantiate the abstract library calls in
witnesses: only the entries `a` and `b` are parseable. -/
def toyNewMultiaddr (s : List Char) : Option Nat :=
  if s = "a".data then some 0 else if s = "b".data then some 1 else none

/-- Toy `peer.AddrInfoFromP2pAddr` for witnesses: always succeeds. -/
def toyAddrInfo (m : Nat) : Option Nat := some m

/-- The relay-address test of `waitForRelayAndPrint`:
`strings.Contains(a.String(), "/p2p-circuit")`. -/
def hasCircuit (a : List Char) : Bool := containsSub "/p2p-circuit".data a

/-- Function `waitForRelayAndPrint`, abstracted over the successive
snapshots of `h.Addrs()` observed at each poll; the deadline bounds the
number of polls, so the snapshot list is finite.  Returns the first
relay-derived address found (which the code prints), or `none` when the
timeout elapses and only the fallback hint is printed. -/
def waitForRelayPoll : List (List (List Char)) → Option (List Char)
  | [] => none
  | snapshot :: rest =>
    match snapshot.find? hasCircuit with
    | some a => some a
    | none => waitForRelayPoll rest

/-- The AutoRelay option setup of `main`: with an empty `--relays` flag no
relay support is requested; with a non-empty flag the list is parsed (a
parse error is fatal, modelled as `none`), an empty parsed list only logs a
warning and disables AutoRelay, and a non-empty parsed list enables
AutoRelay and hole punching. -/
def autoRelaySetup {MA Info : Type} (newMultiaddr : List Char → Option MA)
    (addrInfoFromP2p : MA → Option Info) (relaysCSV : List Char) :
    Option Bool :=
  if relaysCSV = [] then some false
  else
    match parseRelayInfos newMultiaddr addrInfoFromP2p relaysCSV with
    | .error _ => none
    | .ok l => some (!l.isEmpty)

/-- What the host role does between printing its addresses and entering the
message loop. -/
structure HostRun where
  autoRelay : Bool
  ranRelayWait : Bool
  relayPrinted : Option (List Char)
  deriving DecidableEq

/-- The host-role startup of `main` after `printHostInfo`: AutoRelay is
enabled from the parsed relay list, but the decision to run the bounded
relay polling wait is `if *relaysCSV != ""`, i.e. made on the raw flag
string. -/
def hostFlow {MA Info : Type} (newMultiaddr : List Char → Option MA)
    (addrInfoFromP2p : MA → Option Info) (relaysCSV : List Char)
    (polls : List (List (List Char))) : Option HostRun :=
  match autoRelaySetup newMultiaddr addrInfoFromP2p relaysCSV with
  | none => none
  | some enabled =>
    if relaysCSV = [] then some ⟨enabled, false, none⟩
    else some ⟨enabled, true, waitForRelayPoll polls⟩

/-- Outcome of the joiner path of `main`. -/
inductive JoinOutcome where
  | fatalInvalidMultiaddr
  | fatalBadAddrInfo
  | alreadyHosting
  | fatalConnect
  | session (connected : Bool)
  deriving DecidableEq

/-- The joiner path of `main` (the `else if joinAddr != ""` branch and the
fall-through after it): an empty operator-supplied address skips the whole
block and falls through into the chat session without connecting; a
non-empty address is parsed by `multiaddr.NewMultiaddr` (fatal `invalid
multiaddr` on failure), turned into an AddrInfo by
`peer.AddrInfoFromP2pAddr` (fatal on failure), compared against the node's
own identity (report and exit when equal), probed (advisory only, affecting
only a printed notice) and finally dialed (`connectOk` is the success of
`h.Connect`; failure is fatal). -/
def joinerFlow {MA Info : Type} (newMultiaddr : List Char → Option MA)
    (addrInfoFromP2p : MA → Option Info) (idOf : Info → Nat) (selfId : Nat)
    (connectOk : Bool) (joinAddr : List Char) : JoinOutcome :=
  if joinAddr = [] then .session false
  else
    match newMultiaddr joinAddr with
    | none => .fatalInvalidMultiaddr
    | some m =>
      match addrInfoFromP2p m with
      | none => .fatalBadAddrInfo
      | some info =>
        if idOf info = selfId then .alreadyHosting
        else if connectOk then .session true
        else .fatalConnect

/-- The loopback test of `printHostInfo`:
`strings.Contains(s, "/ip4/127.0.0.1") || strings.Contains(s, "/ip6/::1")`. -/
def loopbackPat (s : List Char) : Bool :=
  containsSub "/ip4/127.0.0.1".data s || containsSub "/ip6/::1".data s

/-- The LAN test of `printHostInfo`: `strings.Contains(s, "/ip4/10.") ||
strings.Contains(s, "/ip4/192.168.") || strings.Contains(s, "/ip4/172.")`. -/
def lanPat (s : List Char) : Bool :=
  containsSub "/ip4/10.".data s || containsSub "/ip4/192.168.".data s ||
  containsSub "/ip4/172.".data s

/-- The three address groups of `printHostInfo`. -/
inductive AddrClass where
  | loopback
  | lan
  | other
  deriving DecidableEq

/-- The classification switch of `printHostInfo`, applied to the raw
address string. -/
def classifyAddr (s : List Char) : AddrClass :=
  if loopbackPat s then .loopback
  else if lanPat s then .lan
  else .other

/-- The id-encapsulated address `a.Encapsulate("/p2p/" + h.ID())` as
printed by `printHostInfo`. -/
def withID (selfId a : List Char) : List Char := a ++ "/p2p/".data ++ selfId

/-- The grouping loop of `printHostInfo`: split the node's addresses, in
order, into the loopback, LAN and other lists, classifying the raw address
string and storing the id-encapsulated form. -/
def groupAddrs (selfId : List Char) :
    List (List Char) → List (List Char) × List (List Char) × List (List Char)
  | [] => ([], [], [])
  | a :: rest =>
    let g := groupAddrs selfId rest
    match classifyAddr a with
    | .loopback => (withID selfId a :: g.1, g.2.1, g.2.2)
    | .lan => (g.1, withID selfId a :: g.2.1, g.2.2)
    | .other => (g.1, g.2.1, withID selfId a :: g.2.2)

/-- One printed line of `printHostInfo`. -/
inductive HostLine where
  | rule
  | nodeId (id : List Char)
  | headOther
  | headLan
  | headLoopback
  | addrLine (a : List Char)
  deriving DecidableEq

/-- A labeled group of `printHostInfo` output: heading then addresses, or
nothing at all when the group is empty. -/
def renderGroup (head : HostLine) (g : List (List Char)) : List HostLine :=
  if g = [] then [] else head :: g.map .addrLine

/-- The full console output of `printHostInfo`: rule, node id, then the
other / LAN / loopback groups in this order, each printed only when
non-empty, then a closing rule. -/
def printHostInfo (selfId : List Char) (addrs : List (List Char)) :
    List HostLine :=
  [HostLine.rule, HostLine.nodeId selfId]
    ++ renderGroup .headOther (groupAddrs selfId addrs).2.2
    ++ renderGroup .headLan (groupAddrs selfId addrs).2.1
    ++ renderGroup .headLoopback (groupAddrs selfId addrs).1
    ++ [HostLine.rule]

/-- Digits of a decimal number, for the dotted-quad reading of the
spec-side private-LAN notion. -/
def digitsToNat : List Char → Option Nat
  | [] => none
  | l =>
    if l.all Char.isDigit then
      some (l.foldl (fun n c => n * 10 + (c.toNat - 48)) 0)
    else none

/-- The IPv4 component of a multiaddr string as four octets, when
present and well-formed. -/
def ipv4Octets (s : List Char) : Option (Nat × Nat × Nat × Nat) :=
  match splitFirst "/ip4/".data s with
  | none => none
  | some (_, rest) =>
    match (splitOn '.' (rest.takeWhile (fun c => c != '/'))).map digitsToNat with
    | [some a, some b, some c, some d] =>
      if a ≤ 255 ∧ b ≤ 255 ∧ c ≤ 255 ∧ d ≤ 255 then some (a, b, c, d) else none
    | _ => none

/-- Written from the spec's words, for comparison with the code's
classifier: an address is a private-LAN address when its IPv4 component
lies in one of the RFC 1918 private ranges 10.0.0.0/8, 172.16.0.0/12 or
192.168.0.0/16. -/
def specPrivateLanAddr (s : List Char) : Bool :=
  match ipv4Octets s with
  | some (a, b, _, _) =>
    a == 10 || (a == 172 && (16 ≤ b && b ≤ 31)) || (a == 192 && b == 168)
  | none => false

/-- The scan verbs Go `fmt` accepts for a `*string` argument
(`fmt` scanning, `convertString`): `%s %v %q %x %X`.  C-`scanf` character
classes such as `%[^/]` are not implemented by Go's `fmt`; hitting such a
verb is a `bad verb` scan error. -/
def stringVerbOk (c : Char) : Bool :=
  c == 's' || c == 'v' || c == 'q' || c == 'x' || c == 'X'

/-- Go `fmt.Sscanf` restricted to string arguments: the string tokens
assigned, in order, before the scan stops.  A literal format character must
match the input one-for-one; `%` followed by a supported string verb scans
the next whitespace-delimited token; `%` followed by any other character
(such as the `[` of `%[^/]` or the `*` of `%*s`) is a scan error that stops
the scan before assigning to the current argument, as Go's scanner does. -/
def goScanStrings : List Char → List Char → List (List Char)
  | [], _ => []
  | c :: fs, input =>
    if c = '%' then
      match fs with
      | [] => []
      | v :: fs2 =>
        if stringVerbOk v then
          match (input.dropWhile isGoSpace).takeWhile (fun x => !isGoSpace x) with
          | [] => []
          | t :: ts =>
            (t :: ts) ::
              goScanStrings fs2
                ((input.dropWhile isGoSpace).drop (t :: ts).length)
        else []
    else
      match input with
      | [] => []
      | i :: is => if i = c then goScanStrings fs is else []

/-- Whether the first `%` directive of a format has a verb Go rejects for a
string argument (or the format ends at `%`). -/
def badFirstVerb : List Char → Bool
  | [] => false
  | c :: fs =>
    if c = '%' then
      match fs with
      | [] => true
      | v :: _ => !stringVerbOk v
    else badFirstVerb fs

/-- The first format string of `addrInfoIsReachable`. -/
def fmtIp4 : List Char := "/ip4/%[^/]/tcp/%[^/]/p2p/%*s".data

/-- The second format string of `addrInfoIsReachable`. -/
def fmtDns : List Char := "/dns/%[^/]/tcp/%[^/]/p2p/%*s".data

/-- A call `fmt.Sscanf(s, format, &ip, &port)` with the prior values of the
two variables: Go leaves a variable untouched when the scan stops before
assigning it. -/
def sscanf2 (format input ip port : List Char) : List Char × List Char :=
  match goScanStrings format input with
  | a :: b :: _ => (a, b)
  | [a] => (a, port)
  | [] => (ip, port)

/-- One iteration of the loop of `addrInfoIsReachable` over `info.Addrs`:
scan the ip4 shape into the two fresh variables and dial on a hit; then
scan the dns shape into the same, still-set variables and dial on a hit.
`dial` is the success of `net.DialTimeout("tcp", net.JoinHostPort(ip,
port), t)`. -/
def probeAddr (dial : List Char → List Char → Bool) (s : List Char) : Bool :=
  let p1 := sscanf2 fmtIp4 s [] []
  if !p1.1.isEmpty && !p1.2.isEmpty && dial p1.1 p1.2 then true
  else
    let p2 := sscanf2 fmtDns s p1.1 p1.2
    !p2.1.isEmpty && !p2.2.isEmpty && dial p2.1 p2.2

/-- Function `addrInfoIsReachable`: try every address of the peer in order,
returning true on the first successful dial. -/
def addrInfoIsReachable (dial : List Char → List Char → Bool)
    (addrs : List (List Char)) : Bool :=
  addrs.any (probeAddr dial)

lemma frameDelim_isPrefixOf (c : Char) (l : List Char) :
    frameDelim.isPrefixOf (c :: l) = ((']' == c) && [':'].isPrefixOf l) := rfl

lemma colon_isPrefixOf_cons (d : Char) (l : List Char) :
    [':'].isPrefixOf (d :: l) = (':' == d) := by
  show ((':' == d) && List.isPrefixOf [] l) = (':' == d)
  rw [List.isPrefixOf_nil_left, Bool.and_true]

lemma splitFirst_cons (sep : List Char) (c : Char) (cs : List Char) :
    splitFirst sep (c :: cs)
      = if sep.isPrefixOf (c :: cs) then some ([], (c :: cs).drop sep.length)
        else
          match splitFirst sep cs with
          | some (pre, post) => some (c :: pre, post)
          | none => none := rfl

lemma containsSub_cons (sub : List Char) (c : Char) (cs : List Char) :
    containsSub sub (c :: cs)
      = (sub.isPrefixOf (c :: cs) || containsSub sub cs) := by
  simp only [containsSub, splitFirst]
  cases hp : sub.isPrefixOf (c :: cs) with
  | true => simp
  | false =>
    cases hs : splitFirst sub cs with
    | none => simp [hs]
    | some pp => simp [hs]

lemma splitFirst_wrap (body : List Char) :
    ∀ name : List Char, containsSub frameDelim name = false →
      splitFirst frameDelim (name ++ frameDelim ++ body) = some (name, body) := by
  intro name
  induction name with
  | nil =>
    intro _
    have hl : ([] : List Char) ++ frameDelim ++ body = ']' :: ':' :: body := by
      simp [frameDelim]
    have hpre : frameDelim.isPrefixOf (']' :: ':' :: body) = true := by
      rw [frameDelim_isPrefixOf, colon_isPrefixOf_cons]
      decide
    rw [hl, splitFirst_cons, hpre]
    simp [frameDelim]
  | cons c cs ih =>
    intro h
    rw [containsSub_cons] at h
    rcases Bool.or_eq_false_iff.mp h with ⟨h1, h2⟩
    have hl : (c :: cs) ++ frameDelim ++ body = c :: (cs ++ frameDelim ++ body) := by
      simp
    have hnp : frameDelim.isPrefixOf (c :: (cs ++ frameDelim ++ body)) = false := by
      cases cs with
      | nil =>
        have hl2 : ([] : List Char) ++ frameDelim ++ body = ']' :: ':' :: body := by
          simp [frameDelim]
        rw [hl2, frameDelim_isPrefixOf, colon_isPrefixOf_cons]
        have : (':' == ']') = false := by decide
        rw [this, Bool.and_false]
      | cons d ds =>
        rw [frameDelim_isPrefixOf, colon_isPrefixOf_cons] at h1
        have hl3 : (d :: ds) ++ frameDelim ++ body = d :: (ds ++ frameDelim ++ body) := by
          simp
        rw [hl3, frameDelim_isPrefixOf, colon_isPrefixOf_cons]
        exact h1
    have hrec := ih h2
    rw [hl, splitFirst_cons, hnp]
    simp only [Bool.false_eq_true, if_false, hrec]

lemma renderAll_filter_self (selfId : Nat) (msgs : List InMsg) :
    renderAll selfId msgs
      = renderAll selfId (msgs.filter (fun x => !(x.receivedFrom == selfId))) := by
  induction msgs with
  | nil => rfl
  | cons m ms ih =>
    simp only [renderAll] at ih ⊢
    by_cases hm : m.receivedFrom = selfId <;>
      simp [handleInbound, hm, List.filter_cons, List.filterMap_cons, ih]

lemma Ensure_state_of_isSome {Key Bytes : Type} (marshal : Key → Bytes)
    (unmarshal : Bytes → Option Key) (f : Key) (fs : KeyFS Bytes)
    (h : fs.file.isSome) : (Ensure marshal unmarshal f fs).2 = fs := by
  rcases fs with ⟨file, w⟩
  cases file with
  | none => simp at h
  | some d => cases hu : unmarshal d <;> simp [Ensure, hu]

lemma runEnsure_of_isSome {Key Bytes : Type} (marshal : Key → Bytes)
    (unmarshal : Bytes → Option Key) (keys : List Key) (fs : KeyFS Bytes)
    (h : fs.file.isSome) : runEnsure marshal unmarshal keys fs = fs := by
  induction keys with
  | nil => rfl
  | cons f rest ih =>
    rw [runEnsure, Ensure_state_of_isSome marshal unmarshal f fs h]
    exact ih

lemma splitOn_cons (sep c : Char) (cs : List Char) :
    splitOn sep (c :: cs)
      = if c = sep then [] :: splitOn sep cs
        else
          match splitOn sep cs with
          | p :: ps => (c :: p) :: ps
          | [] => [[c]] := rfl

lemma trimSpace_eq_nil_iff (l : List Char) :
    trimSpace l = [] ↔ ∀ c ∈ l, isGoSpace c := by
  simp only [trimSpace, List.reverse_eq_nil_iff, List.dropWhile_eq_nil_iff,
    List.mem_reverse]
  constructor
  · intro h c hc
    rw [← List.takeWhile_append_dropWhile (p := isGoSpace) (l := l)] at hc
    rcases List.mem_append.mp hc with hc | hc
    · exact List.mem_takeWhile_imp hc
    · exact h c hc
  · intro h c hc
    exact h c ((List.dropWhile_sublist _).mem hc)

lemma splitOn_ne_nil (sep : Char) (l : List Char) : splitOn sep l ≠ [] := by
  induction l with
  | nil => simp [splitOn]
  | cons c cs ih =>
    by_cases hc : c = sep
    · simp [splitOn, hc]
    · cases hs : splitOn sep cs with
      | nil => exact absurd hs ih
      | cons p ps => simp [splitOn, hc, hs]

lemma mem_of_mem_splitOn (sep : Char) (c : Char) :
    ∀ (l : List Char) (p : List Char), p ∈ splitOn sep l → c ∈ p → c ∈ l := by
  intro l
  induction l with
  | nil =>
    intro p hp hc
    simp [splitOn] at hp
    subst hp
    simp at hc
  | cons d ds ih =>
    intro p hp hc
    by_cases hd : d = sep
    · simp only [splitOn, hd, if_pos rfl] at hp
      rcases List.mem_cons.mp hp with hp | hp
      · subst hp; simp at hc
      · exact List.mem_cons_of_mem _ (ih p hp hc)
    · simp only [splitOn, if_neg hd] at hp
      cases hs : splitOn sep ds with
      | nil => exact absurd hs (splitOn_ne_nil sep ds)
      | cons q qs =>
        rw [hs] at hp
        rcases List.mem_cons.mp hp with hp | hp
        · subst hp
          rcases List.mem_cons.mp hc with hc | hc
          · subst hc; exact List.mem_cons_self _ _
          · exact List.mem_cons_of_mem _ (ih q (hs ▸ List.mem_cons_self q qs) hc)
        · exact List.mem_cons_of_mem _ (ih p (hs ▸ List.mem_cons_of_mem q hp) hc)

lemma splitOn_append_sep (sep : Char) (rest : List Char) :
    ∀ xs : List Char, sep ∉ xs →
      splitOn sep (xs ++ sep :: rest) = xs :: splitOn sep rest := by
  intro xs
  induction xs with
  | nil => intro _; simp [splitOn]
  | cons x xs ih =>
    intro h
    have hx : ¬x = sep := fun he => h (he ▸ List.mem_cons_self x xs)
    have hxs : sep ∉ xs := fun hm => h (List.mem_cons_of_mem x hm)
    rw [List.cons_append, splitOn_cons, if_neg hx, ih hxs]

lemma splitOn_of_not_mem (sep : Char) :
    ∀ l : List Char, sep ∉ l → splitOn sep l = [l] := by
  intro l
  induction l with
  | nil => intro _; rfl
  | cons c cs ih =>
    intro h
    have hc : ¬c = sep := fun he => h (he ▸ List.mem_cons_self c cs)
    have hcs : sep ∉ cs := fun hm => h (List.mem_cons_of_mem c hm)
    simp only [splitOn, if_neg hc, ih hcs]

lemma parseRelayEntry_error_entry {MA Info : Type}
    (newMultiaddr : List Char → Option MA) (addrInfoFromP2p : MA → Option Info)
    (s : List Char) (e : RelayErr)
    (h : parseRelayEntry newMultiaddr addrInfoFromP2p s = .error e) :
    e.entry = s := by
  cases hm : newMultiaddr s with
  | none =>
    simp only [parseRelayEntry, hm, Except.error.injEq] at h
    subst h
    rfl
  | some m =>
    cases ha : addrInfoFromP2p m with
    | none =>
      simp only [parseRelayEntry, hm, ha, Except.error.injEq] at h
      subst h
      rfl
    | some i =>
      simp only [parseRelayEntry, hm, ha] at h
      simp at h

lemma parseRelayParts_error {MA Info : Type}
    (newMultiaddr : List Char → Option MA) (addrInfoFromP2p : MA → Option Info) :
    ∀ parts : List (List Char),
      (∃ p ∈ parts, trimSpace p ≠ [] ∧
        ∃ e, parseRelayEntry newMultiaddr addrInfoFromP2p (trimSpace p) = .error e) →
      ∃ err, parseRelayParts newMultiaddr addrInfoFromP2p parts = .error err ∧
        err.entry ∈ parts.map trimSpace ∧
        ∃ e2, parseRelayEntry newMultiaddr addrInfoFromP2p err.entry = .error e2 := by
  intro parts
  induction parts with
  | nil => rintro ⟨p, hp, -⟩; simp at hp
  | cons p ps ih =>
    rintro ⟨q, hq, hqt, e, he⟩
    by_cases hp : trimSpace p = []
    · have hq' : q ∈ ps := by
        rcases List.mem_cons.mp hq with h | h
        · exact absurd (h ▸ hp) hqt
        · exact h
      rcases ih ⟨q, hq', hqt, e, he⟩ with ⟨err, herr, hmem, he2⟩
      exact ⟨err, by simp only [parseRelayParts, if_pos hp]; exact herr,
        by simp [hmem], he2⟩
    · cases hpe : parseRelayEntry newMultiaddr addrInfoFromP2p (trimSpace p) with
      | error e0 =>
        refine ⟨e0, ?_, ?_, e0, ?_⟩
        · simp only [parseRelayParts, if_neg hp, hpe]
        · rw [parseRelayEntry_error_entry newMultiaddr addrInfoFromP2p _ _ hpe]
          simp
        · rw [parseRelayEntry_error_entry newMultiaddr addrInfoFromP2p _ _ hpe]
          exact hpe
      | ok i =>
        have hq' : q ∈ ps := by
          rcases List.mem_cons.mp hq with h | h
          · subst h; rw [hpe] at he; cases he
          · exact h
        rcases ih ⟨q, hq', hqt, e, he⟩ with ⟨err, herr, hmem, he2⟩
        refine ⟨err, ?_, by simp [hmem], he2⟩
        simp only [parseRelayParts, if_neg hp, hpe, herr]

lemma trimSpace_ne_nil_of_mem (l : List Char) (c : Char) (hc : c ∈ l)
    (hns : isGoSpace c = false) : trimSpace l ≠ [] := by
  intro h
  have := (trimSpace_eq_nil_iff l).mp h c hc
  rw [hns] at this
  cases this

lemma mem_renderGroup (head x : HostLine) (g : List (List Char)) :
    x ∈ renderGroup head g
      ↔ (x = head ∧ g ≠ []) ∨ ∃ a ∈ g, x = .addrLine a := by
  unfold renderGroup
  by_cases hg : g = []
  · simp [hg]
  · simp only [if_neg hg, List.mem_cons, List.mem_map]
    constructor
    · rintro (rfl | ⟨a, ha, heq⟩)
      · exact Or.inl ⟨rfl, hg⟩
      · exact Or.inr ⟨a, ha, heq.symm⟩
    · rintro (⟨rfl, -⟩ | ⟨a, ha, heq⟩)
      · exact Or.inl rfl
      · exact Or.inr ⟨a, ha, heq.symm⟩

lemma goScanStrings_of_badFirstVerb :
    ∀ format : List Char, badFirstVerb format = true →
      ∀ input : List Char, goScanStrings format input = [] := by
  intro format
  induction format with
  | nil => intro h; simp [badFirstVerb] at h
  | cons c fs ih =>
    intro h input
    by_cases hc : c = '%'
    · cases fs with
      | nil =>
        cases input with
        | nil => simp [goScanStrings, hc]
        | cons i is => simp [goScanStrings, hc]
      | cons v fs2 =>
        have hv : stringVerbOk v = false := by
          simp only [badFirstVerb, if_pos hc] at h
          simpa using h
        cases input with
        | nil => simp [goScanStrings, hc, hv]
        | cons i is => simp [goScanStrings, hc, hv]
    · have h' : badFirstVerb fs = true := by
        simpa [badFirstVerb, hc] using h
      cases fs with
      | nil => simp [badFirstVerb] at h'
      | cons v fs2 =>
        cases input with
        | nil => simp [goScanStrings, hc]
        | cons i is =>
          by_cases hi : i = c
          · simp [goScanStrings, hc, hi, ih h']
          · simp [goScanStrings, hc, hi]

lemma sscanf2_fmtIp4 (s : List Char) : sscanf2 fmtIp4 s [] [] = ([], []) := by
  rw [sscanf2, goScanStrings_of_badFirstVerb fmtIp4 (by decide) s]

lemma sscanf2_fmtDns (s ip port : List Char) :
    sscanf2 fmtDns s ip port = (ip, port) := by
  rw [sscanf2, goScanStrings_of_badFirstVerb fmtDns (by decide) s]

lemma probeAddr_false (dial : List Char → List Char → Bool) (s : List Char) :
    probeAddr dial s = false := by
  simp [probeAddr, sscanf2_fmtIp4, sscanf2_fmtDns]

/-- C1: for every display name that does not contain the substring `]:` and
every body, wrapping as `[name]:body` and parsing with the inbound frame
parser recovers exactly the original (name, body) pair. -/
theorem c1_frame_round_trip (name body : List Char)
    (h : containsSub frameDelim name = false) :
    parseFrame (wrapFrame name body) = .framed name body := by
  have h1 : containsSub frameDelim ('[' :: name) = false := by
    rw [containsSub_cons, frameDelim_isPrefixOf]
    have hb : (']' == '[') = false := by decide
    simp [hb, h]
  have hw := splitFirst_wrap body ('[' :: name) h1
  have hw' : splitFirst frameDelim (wrapFrame name body)
      = some ('[' :: name, body) := by
    simpa [wrapFrame] using hw
  simp [parseFrame, hw', List.isPrefixOf]

/-- C1 witness: concrete round trip, with a body that itself contains the
delimiter. -/
theorem c1_frame_round_trip_witness :
    parseFrame (wrapFrame "alice".data "hi ]: there".data)
      = .framed "alice".data "hi ]: there".data :=
  c1_frame_round_trip "alice".data "hi ]: there".data (by decide)

/-- C2: on a fresh path the first `Ensure` call writes the marshalled fresh
key exactly once and returns it; a second call performs no write, leaves the
file untouched and returns the identity deserialized from the stored bytes;
over any sequence of calls the state after the first call never changes
again, so at most one write ever occurs and only on the first call. -/
theorem c2_identity_idempotent {Key Bytes : Type} (marshal : Key → Bytes)
    (unmarshal : Bytes → Option Key) (fs : KeyFS Bytes)
    (hfresh : fs.file = none) :
    (∀ f : Key,
      (Ensure marshal unmarshal f fs).1 = .ok f ∧
      (Ensure marshal unmarshal f fs).2.file = some (marshal f) ∧
      (Ensure marshal unmarshal f fs).2.writes = fs.writes + 1) ∧
    (∀ f g k : Key, unmarshal (marshal f) = some k →
      Ensure marshal unmarshal g (Ensure marshal unmarshal f fs).2
        = (.ok k, (Ensure marshal unmarshal f fs).2)) ∧
    (∀ (f : Key) (rest : List Key),
      runEnsure marshal unmarshal (f :: rest) fs
        = (Ensure marshal unmarshal f fs).2) := by
  rcases fs with ⟨file, w⟩
  simp only [KeyFS.mk.injEq] at hfresh
  subst hfresh
  refine ⟨fun f => ⟨rfl, rfl, rfl⟩, fun f g k hk => ?_, fun f rest => ?_⟩
  · simp [Ensure, hk]
  · rw [runEnsure]
    exact runEnsure_of_isSome marshal unmarshal rest _ (by simp [Ensure])

/-- C2 witness: concrete key store with `marshal k = [k]` and `unmarshal`
taking the head. -/
theorem c2_identity_idempotent_witness :
    (Ensure (fun k : Nat => [k]) List.head? 5 ⟨none, 0⟩).1 = .ok 5 ∧
    Ensure (fun k : Nat => [k]) List.head? 7
        (Ensure (fun k : Nat => [k]) List.head? 5 ⟨none, 0⟩).2
      = (.ok 5, (Ensure (fun k : Nat => [k]) List.head? 5 ⟨none, 0⟩).2) ∧
    runEnsure (fun k : Nat => [k]) List.head? [5, 7, 9] ⟨none, 0⟩
      = (Ensure (fun k : Nat => [k]) List.head? 5 ⟨none, 0⟩).2 := by
  have h := c2_identity_idempotent (fun k : Nat => [k]) List.head? ⟨none, 0⟩ rfl
  exact ⟨(h.1 5).1, h.2.1 5 7 5 rfl, h.2.2 5 [7, 9]⟩

/-- C3: relay-list parsing.  Empty or whitespace-only input yields an empty
list and no error; `a,,b` with `a` and `b` parseable skips the empty
segment and yields exactly the two parsed entries; and whenever some
comma-separated entry (after trimming, and not itself empty) is
unparseable, the whole call fails with an error naming such an entry and no
partial list is returned. -/
theorem c3_relay_list_parsing {MA Info : Type}
    (newMultiaddr : List Char → Option MA)
    (addrInfoFromP2p : MA → Option Info) :
    (∀ csv : List Char, trimSpace csv = [] →
      parseRelayInfos newMultiaddr addrInfoFromP2p csv = .ok []) ∧
    (∀ (a b : List Char) (pa pb : Info),
      ',' ∉ a → ',' ∉ b → trimSpace a = a → trimSpace b = b → a ≠ [] → b ≠ [] →
      parseRelayEntry newMultiaddr addrInfoFromP2p a = .ok pa →
      parseRelayEntry newMultiaddr addrInfoFromP2p b = .ok pb →
      parseRelayInfos newMultiaddr addrInfoFromP2p (a ++ ',' :: ',' :: b)
        = .ok [pa, pb]) ∧
    (∀ csv : List Char,
      (∃ p ∈ splitOn ',' csv, trimSpace p ≠ [] ∧
        ∃ e, parseRelayEntry newMultiaddr addrInfoFromP2p (trimSpace p) = .error e) →
      ∃ err, parseRelayInfos newMultiaddr addrInfoFromP2p csv = .error err ∧
        err.entry ∈ (splitOn ',' csv).map trimSpace ∧
        (∃ e2, parseRelayEntry newMultiaddr addrInfoFromP2p err.entry = .error e2) ∧
        ∀ l, parseRelayInfos newMultiaddr addrInfoFromP2p csv ≠ .ok l) := by
  refine ⟨fun csv h => by simp [parseRelayInfos, h], ?_, ?_⟩
  · intro a b pa pb hca hcb hta htb hna hnb hpa hpb
    have hcomma : isGoSpace ',' = false := by decide
    have hmem : ',' ∈ a ++ ',' :: ',' :: b := by simp
    have htcsv := trimSpace_ne_nil_of_mem _ ',' hmem hcomma
    have hsplit : splitOn ',' (a ++ ',' :: ',' :: b) = a :: [] :: [b] := by
      rw [splitOn_append_sep ',' (',' :: b) a hca]
      have : splitOn ',' (',' :: b) = [] :: splitOn ',' b := by
        simp [splitOn]
      rw [this, splitOn_of_not_mem ',' b hcb]
    rw [parseRelayInfos, if_neg htcsv, hsplit]
    have htrimnil : trimSpace ([] : List Char) = [] := rfl
    simp only [parseRelayParts, hta, htb, if_neg hna, if_neg hnb, hpa, hpb,
      htrimnil, if_pos rfl]
    simp
  · intro csv hbad
    rcases hbad with ⟨p, hp, hpt, e, he⟩
    have hcsv : trimSpace csv ≠ [] := by
      have hnall : ¬∀ c ∈ p, isGoSpace c := fun hall =>
        hpt ((trimSpace_eq_nil_iff p).mpr hall)
      push_neg at hnall
      rcases hnall with ⟨c, hcp, hcs⟩
      have hcf : isGoSpace c = false := by simpa using hcs
      exact trimSpace_ne_nil_of_mem csv c (mem_of_mem_splitOn ',' c csv p hp hcp) hcf
    rcases parseRelayParts_error newMultiaddr addrInfoFromP2p (splitOn ',' csv)
      ⟨p, hp, hpt, e, he⟩ with ⟨err, herr, hmem, he2⟩
    refine ⟨err, ?_, hmem, he2, ?_⟩
    · rw [parseRelayInfos, if_neg hcsv]
      exact herr
    · intro l hl
      rw [parseRelayInfos, if_neg hcsv, herr] at hl
      cases hl

/-- C3 witness: empty and whitespace-only inputs give an empty list, the
input `a,,b` gives the two parsed entries, and an unparseable entry fails
the whole call. -/
theorem c3_relay_list_parsing_witness :
    parseRelayInfos toyNewMultiaddr toyAddrInfo "".data = .ok [] ∧
    parseRelayInfos toyNewMultiaddr toyAddrInfo "   ".data = .ok [] ∧
    parseRelayInfos toyNewMultiaddr toyAddrInfo "a,,b".data = .ok [0, 1] ∧
    ∃ err, parseRelayInfos toyNewMultiaddr toyAddrInfo "a,x,b".data = .error err := by
  have h := c3_relay_list_parsing toyNewMultiaddr toyAddrInfo
  refine ⟨h.1 "".data rfl, h.1 "   ".data (by decide), ?_, ?_⟩
  · have hx := h.2.1 "a".data "b".data 0 1 (by decide) (by decide) (by decide)
      (by decide) (by decide) (by decide) rfl rfl
    have heq : "a".data ++ ',' :: ',' :: "b".data = "a,,b".data := by decide
    rw [heq] at hx
    exact hx
  · rcases h.2.2 "a,x,b".data
      ⟨"x".data, by decide, by decide, .badMultiaddr "x".data, rfl⟩
      with ⟨err, herr, -, -, -⟩
    exact ⟨err, herr⟩

/-- C4: a received topic message whose origin is this node's own identity is
discarded by the inbound listener and never rendered; the console output of
the listener over any message stream equals its output with all self-origin
messages removed. -/
theorem c4_self_echo_suppressed (selfId : Nat) (m : InMsg)
    (h : m.receivedFrom = selfId) :
    handleInbound selfId m = none ∧
    ∀ msgs : List InMsg,
      renderAll selfId msgs
        = renderAll selfId (msgs.filter (fun x => !(x.receivedFrom == selfId))) := by
  exact ⟨by simp [handleInbound, h], fun msgs => renderAll_filter_self selfId msgs⟩

/-- C4 witness: a concrete self-origin message is not rendered. -/
theorem c4_self_echo_suppressed_witness :
    handleInbound 3 ⟨3, "[a]:hi".data⟩ = none :=
  (c4_self_echo_suppressed 3 ⟨3, "[a]:hi".data⟩ rfl).1

/-- C5 counterexample: the claim says a joiner with an empty or malformed
target never proceeds into the chat session, but an empty target skips the
validation block entirely and the session loop is entered (unconnected),
with no invalid-address error — here even though no address at all is
well-formed. -/
theorem c5_counterexample :
    joinerFlow (fun _ : List Char => (none : Option Nat)) (fun m => some m)
      (fun i => i) 0 false [] = .session false := rfl

/-- C5 (amended): every non-empty target address that is not a well-formed
peer address fails with an invalid-address error and never reaches the chat
session; an empty target, however, bypasses validation and proceeds into
the session loop without connecting. -/
theorem c5_joiner_validation {MA Info : Type}
    (newMultiaddr : List Char → Option MA) (addrInfoFromP2p : MA → Option Info)
    (idOf : Info → Nat) (selfId : Nat) (connectOk : Bool) :
    (∀ joinAddr : List Char, joinAddr ≠ [] →
      (newMultiaddr joinAddr = none ∨
        ∃ m, newMultiaddr joinAddr = some m ∧ addrInfoFromP2p m = none) →
      (joinerFlow newMultiaddr addrInfoFromP2p idOf selfId connectOk joinAddr
          = .fatalInvalidMultiaddr ∨
       joinerFlow newMultiaddr addrInfoFromP2p idOf selfId connectOk joinAddr
          = .fatalBadAddrInfo) ∧
      ∀ b, joinerFlow newMultiaddr addrInfoFromP2p idOf selfId connectOk joinAddr
          ≠ .session b) ∧
    joinerFlow newMultiaddr addrInfoFromP2p idOf selfId connectOk []
      = .session false := by
  refine ⟨fun joinAddr hne hbad => ?_, by simp [joinerFlow]⟩
  rcases hbad with hm | ⟨m, hm, ha⟩
  · constructor
    · left
      simp [joinerFlow, hne, hm]
    · intro b
      simp [joinerFlow, hne, hm]
  · constructor
    · right
      simp [joinerFlow, hne, hm, ha]
    · intro b
      simp [joinerFlow, hne, hm, ha]

/-- C5 witness: a concrete malformed non-empty address fails with the
invalid-address error and does not reach the session. -/
theorem c5_joiner_validation_witness :
    joinerFlow toyNewMultiaddr toyAddrInfo (fun i => i) 0 true "z".data
      = .fatalInvalidMultiaddr ∧
    joinerFlow toyNewMultiaddr toyAddrInfo (fun i => i) 0 true "z".data
      ≠ .session true := by
  have h := (c5_joiner_validation toyNewMultiaddr toyAddrInfo (fun i => i) 0 true).1
    "z".data (by decide) (Or.inl rfl)
  rcases h.1 with h1 | h1
  · exact ⟨h1, h.2 true⟩
  · exact absurd h1 (by rw [show joinerFlow toyNewMultiaddr toyAddrInfo
      (fun i => i) 0 true "z".data = .fatalInvalidMultiaddr from rfl]; decide)

/-- C6: the reachability probe is dead code — for every dial oracle and
every address list it returns false, because Go's `fmt.Sscanf` rejects the
`%[^/]` character-class directive of both format strings with a `bad verb`
error before assigning anything, so `ip` and `port` always stay empty and
no connection is ever attempted.  In particular it returns false even for a
loopback TCP address whose dial would succeed, contradicting the claim that
it returns true on the first successful dial. -/
theorem c6_reachability_probe_always_false
    (dial : List Char → List Char → Bool) (addrs : List (List Char)) :
    addrInfoIsReachable dial addrs = false ∧
    addrInfoIsReachable (fun _ _ => true)
      ["/ip4/127.0.0.1/tcp/4001/p2p/QmPeer".data] = false := by
  constructor
  · rw [addrInfoIsReachable]
    rw [List.any_eq_false]
    intro a _
    simp [probeAddr_false]
  · rw [addrInfoIsReachable]
    rw [List.any_eq_false]
    intro a _
    simp [probeAddr_false]

/-- C6 witness: at the concrete failing input — a dialable loopback TCP
address — the probe still answers false. -/
theorem c6_reachability_probe_always_false_witness :
    addrInfoIsReachable (fun _ _ => true)
      ["/ip4/127.0.0.1/tcp/4001/p2p/QmPeer".data] = false :=
  (c6_reachability_probe_always_false (fun _ _ => true)
    ["/ip4/127.0.0.1/tcp/4001/p2p/QmPeer".data]).2

/-- C7: for every non-empty, non-command operator line whose publish fails,
the failure is reported and the loop keeps running: the session goes on to
process all further input exactly as it would have. -/
theorem c7_publish_failure_recoverable (username : List Char)
    (pubOk : List Char → Bool) (raw : List Char)
    (h1 : trimSpace raw ≠ []) (h2 : trimSpace raw ≠ "/help".data)
    (h3 : trimSpace raw ≠ "/exit".data)
    (h4 : pubOk (wrapFrame username (trimSpace raw)) = false) :
    outboundStep username pubOk raw
      = (.sendFailed (wrapFrame username (trimSpace raw)), true) ∧
    ∀ rest, runOutbound username pubOk (raw :: rest)
      = .sendFailed (wrapFrame username (trimSpace raw))
          :: runOutbound username pubOk rest := by
  have hstep : outboundStep username pubOk raw
      = (.sendFailed (wrapFrame username (trimSpace raw)), true) := by
    simp [outboundStep, h1, h2, h3, h4]
  exact ⟨hstep, fun rest => by simp [runOutbound, hstep]⟩

/-- C7 witness: a failing publish of a concrete chat line is reported and a
following line is still processed. -/
theorem c7_publish_failure_recoverable_witness :
    outboundStep "n".data (fun _ => false) " hi ".data
      = (.sendFailed (wrapFrame "n".data (trimSpace " hi ".data)), true) ∧
    runOutbound "n".data (fun _ => false) [" hi ".data]
      = [.sendFailed (wrapFrame "n".data (trimSpace " hi ".data))] := by
  have h := c7_publish_failure_recoverable "n".data (fun _ => false) " hi ".data
    (by decide) (by decide) (by decide) rfl
  exact ⟨h.1, by rw [h.2 []]; rfl⟩

/-- C8: a received text lacking the frame pattern (no `]:` delimiter, or the
segment before the first `]:` not starting with `[`) is rendered verbatim as
an unframed message; the parser is total, so no error is possible. -/
theorem c8_frame_fallback (t : List Char)
    (h : containsSub frameDelim t = false ∨
      ∀ pre post, splitFirst frameDelim t = some (pre, post) →
        ['['].isPrefixOf pre = false) :
    parseFrame t = .plain t := by
  cases hs : splitFirst frameDelim t with
  | none => simp [parseFrame, hs]
  | some pp =>
    rcases h with h | h
    · exfalso
      rw [containsSub, hs] at h
      simp at h
    · have := h pp.1 pp.2 (by simpa using hs)
      simp [parseFrame, hs, this]

/-- C8 witness: a text with the delimiter but no leading bracket, rendered
verbatim. -/
theorem c8_frame_fallback_witness :
    parseFrame "who]:ami".data = .plain "who]:ami".data := by
  refine c8_frame_fallback _ (Or.inr ?_)
  intro pre post hs
  have hs0 : splitFirst frameDelim "who]:ami".data = some ("who".data, "ami".data) := by
    decide
  rw [hs0] at hs
  simp only [Option.some.injEq, Prod.mk.injEq] at hs
  rw [← hs.1]
  decide

/-- C9 counterexample: `/ip4/172.5.0.1/tcp/4001` is a public address
(172.5.0.0 is outside 172.16.0.0/12), yet `printHostInfo` places it in the
private-LAN group, because the code matches the substring `/ip4/172.` —
so membership in the LAN group is not equivalent to being a private-LAN
address. -/
theorem c9_counterexample :
    classifyAddr "/ip4/172.5.0.1/tcp/4001".data = .lan ∧
    specPrivateLanAddr "/ip4/172.5.0.1/tcp/4001".data = false := by
  constructor
  · decide
  · decide

/-- C9 (amended): `printHostInfo` classifies every address into exactly one
of the three groups — the groups are exactly the classifier's fibers, in
order — and prints each non-empty group under its labeled heading, skipping
empty groups; but an address lands in the private-LAN group exactly when
its string matches one of the substrings `/ip4/10.`, `/ip4/192.168.`,
`/ip4/172.` and no loopback substring — a pattern that overapproximates the
private ranges (all of 172.0.0.0/8 is grouped as LAN, not only
172.16.0.0/12). -/
theorem c9_address_report (selfId : List Char) :
    (∀ addrs : List (List Char),
      groupAddrs selfId addrs
        = ((addrs.filter (fun a => classifyAddr a == .loopback)).map (withID selfId),
           (addrs.filter (fun a => classifyAddr a == .lan)).map (withID selfId),
           (addrs.filter (fun a => classifyAddr a == .other)).map (withID selfId))) ∧
    (∀ a : List Char,
      (classifyAddr a = .loopback ↔ loopbackPat a = true) ∧
      (classifyAddr a = .lan ↔ (loopbackPat a = false ∧ lanPat a = true)) ∧
      (classifyAddr a = .other ↔ (loopbackPat a = false ∧ lanPat a = false))) ∧
    (∀ addrs : List (List Char),
      (HostLine.headLoopback ∈ printHostInfo selfId addrs
        ↔ (groupAddrs selfId addrs).1 ≠ []) ∧
      (HostLine.headLan ∈ printHostInfo selfId addrs
        ↔ (groupAddrs selfId addrs).2.1 ≠ []) ∧
      (HostLine.headOther ∈ printHostInfo selfId addrs
        ↔ (groupAddrs selfId addrs).2.2 ≠ []) ∧
      (∀ x, HostLine.addrLine x ∈ printHostInfo selfId addrs
        ↔ x ∈ (groupAddrs selfId addrs).1 ∨ x ∈ (groupAddrs selfId addrs).2.1 ∨
          x ∈ (groupAddrs selfId addrs).2.2)) := by
  refine ⟨?_, ?_, ?_⟩
  · intro addrs
    induction addrs with
    | nil => rfl
    | cons a rest ih =>
      cases hc : classifyAddr a <;>
        simp [groupAddrs, hc, ih, List.filter_cons]
  · intro a
    unfold classifyAddr
    cases hl : loopbackPat a <;> cases hn : lanPat a <;> simp
  · intro addrs
    refine ⟨?_, ?_, ?_, ?_⟩
    · simp [printHostInfo, mem_renderGroup]
    · simp [printHostInfo, mem_renderGroup]
    · simp [printHostInfo, mem_renderGroup]
    · intro x
      simp [printHostInfo, mem_renderGroup]
      tauto

/-- C9 witness: on a concrete address set — one loopback, one (public!)
172.5 address grouped as LAN, no other — the LAN and loopback headings are
printed and the other heading is skipped. -/
theorem c9_address_report_witness :
    groupAddrs "id".data ["/ip4/127.0.0.1/tcp/1".data, "/ip4/172.5.0.1/tcp/4001".data]
      = ([withID "id".data "/ip4/127.0.0.1/tcp/1".data],
         [withID "id".data "/ip4/172.5.0.1/tcp/4001".data], []) ∧
    (HostLine.headOther ∈
      printHostInfo "id".data
        ["/ip4/127.0.0.1/tcp/1".data, "/ip4/172.5.0.1/tcp/4001".data] ↔ False) := by
  have h := c9_address_report "id".data
  constructor
  · rw [h.1 ["/ip4/127.0.0.1/tcp/1".data, "/ip4/172.5.0.1/tcp/4001".data]]
    decide
  · rw [(h.2.2 ["/ip4/127.0.0.1/tcp/1".data, "/ip4/172.5.0.1/tcp/4001".data]).2.2.1]
    rw [h.1 ["/ip4/127.0.0.1/tcp/1".data, "/ip4/172.5.0.1/tcp/4001".data]]
    simp
    decide

/-- C10: when the `--relays` flag string is non-empty but every entry is
skipped so the parsed list is empty, AutoRelay and hole punching are not
enabled, yet the host still runs the bounded relay polling wait before the
message loop — the wait is decided on the raw flag, not the parsed list. -/
theorem c10_relay_wait_on_raw_flag {MA Info : Type}
    (newMultiaddr : List Char → Option MA)
    (addrInfoFromP2p : MA → Option Info) (relaysCSV : List Char)
    (polls : List (List (List Char)))
    (hne : relaysCSV ≠ [])
    (hparsed : parseRelayInfos newMultiaddr addrInfoFromP2p relaysCSV = .ok []) :
    hostFlow newMultiaddr addrInfoFromP2p relaysCSV polls
      = some ⟨false, true, waitForRelayPoll polls⟩ := by
  simp [hostFlow, autoRelaySetup, hne, hparsed]

/-- C10 witness: the flag `,` parses to an empty relay list yet the relay
wait runs (and, on an address set with no circuit address, times out). -/
theorem c10_relay_wait_on_raw_flag_witness :
    hostFlow toyNewMultiaddr toyAddrInfo ",".data [[]]
      = some ⟨false, true, none⟩ := by
  have h := c10_relay_wait_on_raw_flag toyNewMultiaddr toyAddrInfo ",".data [[]]
    (by decide) rfl
  rw [h]
  rfl

end BlackBox
